import Mathlib

/-
Verification of the hourly statistics engine (package stats, stats_unit.go)
of deanishe/AdGuardHome.  The Go code is shallowly embedded: Go maps are
association lists, the bolt store is a function from bucket identifiers to
optional records, and the three run-time aborts of GetData (the log.Fatalf
length check and the unsigned divide by zero on the average, plus the normal
return) are the three constructors of QueryOutcome.
-/

namespace Stats

/-- Maximum number of top domains stored in a record (stats_unit.go, maxDomains). -/
def maxDomains : Nat := 100

/-- Maximum number of top clients stored in a record (stats_unit.go, maxClients). -/
def maxClients : Nat := 100

/-- Modelled from the spec: the result-classification enum
(unset | not-filtered | filtered | safe-browsing | safe-search | parental);
the Go constants (RNotFiltered = 1 .. RParental = 5, rLast = 6) live in
stats.go, which is not under src/. -/
inductive Result where
  | RUnset
  | RNotFiltered
  | RFiltered
  | RSafeBrowsing
  | RSafeSearch
  | RParental
deriving DecidableEq, Repr

/-- Numeric value of a result kind, the index into the per-kind count array. -/
def Result.toNat : Result → Nat
  | .RUnset => 0
  | .RNotFiltered => 1
  | .RFiltered => 2
  | .RSafeBrowsing => 3
  | .RSafeSearch => 4
  | .RParental => 5

/-- Modelled from the spec: number of result kinds (Go rLast, stats.go). -/
def rLast : Nat := 6

/-- Modelled from the spec: the query granularity selector (Go TimeUnit, stats.go). -/
inductive TimeUnit where
  | Hours
  | Days
deriving DecidableEq, Repr

/-- Name-count pair (stats_unit.go, countPair). -/
structure countPair where
  Name : String
  Count : Nat
deriving DecidableEq, Repr

/-- Persisted bucket record (stats_unit.go, unitDB). -/
structure unitDB where
  NTotal : Nat
  NResult : List Nat
  Domains : List countPair
  BlockedDomains : List countPair
  Clients : List countPair
  TimeAvg : Nat
deriving DecidableEq, Repr

/-- Live accumulator for one hour (stats_unit.go, unit).  Go maps
map[string]int are embedded as association lists with unique keys. -/
structure unit where
  id : Int
  nTotal : Nat
  nResult : List Nat
  timeSum : Nat
  domains : List (String × Nat)
  blockedDomains : List (String × Nat)
  clients : List (String × Nat)
deriving DecidableEq, Repr

/-- Fresh accumulator for identifier id (stats_unit.go, initUnit). -/
def initUnit (id : Int) : unit :=
  { id := id
    nTotal := 0
    nResult := List.replicate rLast 0
    timeSum := 0
    domains := []
    blockedDomains := []
    clients := [] }

/-- The all-zero record GetData substitutes for a missing bucket
(unitDB{} with NResult = make([]uint, rLast)). -/
def emptyUnitDB : unitDB :=
  { NTotal := 0
    NResult := List.replicate rLast 0
    Domains := []
    BlockedDomains := []
    Clients := []
    TimeAvg := 0 }

/-- Map update with overwrite, the embedding of Go m[k] = v. -/
def mapSet : List (String × Nat) → String → Nat → List (String × Nat)
  | [], k, v => [(k, v)]
  | (k', v') :: rest, k, v =>
    if k' = k then (k, v) :: rest else (k', v') :: mapSet rest k v

/-- Map lookup, the embedding of reading Go m[k] (none when the key is absent). -/
def mapGet : List (String × Nat) → String → Option Nat
  | [], _ => none
  | (k', v) :: rest, k => if k' = k then some v else mapGet rest k

/-- Map increment, the embedding of Go m[k]++ (missing keys count from zero). -/
def mapIncr : List (String × Nat) → String → List (String × Nat)
  | [], k => [(k, 1)]
  | (k', v) :: rest, k =>
    if k' = k then (k', v + 1) :: rest else (k', v) :: mapIncr rest k

/-- Insert a pair into a list that is sorted by descending count, placing it
after existing entries of equal count, as the Go comparator
a[i].Count >= a[j].Count orders them. -/
def insertDesc (p : countPair) : List countPair → List countPair
  | [] => [p]
  | q :: qs => if p.Count ≤ q.Count then q :: insertDesc p qs else p :: q :: qs

/-- Sort by descending count; embedding of sort.Slice with the comparator
a[i].Count >= a[j].Count in convertMapToArray. -/
def sortDesc (l : List countPair) : List countPair := l.foldr insertDesc []

/-- Embedding of convertMapToArray (stats_unit.go): dump the map, sort by
descending count, truncate to max (List.take already clamps to the length). -/
def convertMapToArray (m : List (String × Nat)) (max : Nat) : List countPair :=
  (sortDesc (m.map fun kv => ⟨kv.1, kv.2⟩)).take max

/-- Embedding of convertArrayToMap (stats_unit.go): rebuild the map by
assignment in list order (later entries overwrite earlier ones). -/
def convertArrayToMap (a : List countPair) : List (String × Nat) :=
  a.foldl (fun m p => mapSet m p.Name p.Count) []

/-- Embedding of serialize (stats_unit.go): average is integer division
timeSum / nTotal (zero when the bucket is empty), maps truncated to top-K. -/
def serialize (u : unit) : unitDB :=
  { NTotal := u.nTotal
    NResult := u.nResult
    Domains := convertMapToArray u.domains maxDomains
    BlockedDomains := convertMapToArray u.blockedDomains maxDomains
    Clients := convertMapToArray u.clients maxClients
    TimeAvg := if u.nTotal = 0 then 0 else u.timeSum / u.nTotal }

/-- Embedding of deserialize (stats_unit.go).  Note the source appends the
stored NResult entries to whatever u.nResult already holds
(u.nResult = append(u.nResult, ...)), it does not overwrite them. -/
def deserialize (u : unit) (udb : unitDB) : unit :=
  { u with
    nTotal := udb.NTotal
    nResult := u.nResult ++ udb.NResult
    domains := convertArrayToMap udb.Domains
    blockedDomains := convertArrayToMap udb.BlockedDomains
    clients := convertArrayToMap udb.Clients
    timeSum := udb.TimeAvg * udb.NTotal }

/-- Modelled from the spec: one observed DNS query (Go Entry, stats.go):
result classification, queried domain name, client network address as raw
bytes (4-byte IPv4 or 16-byte IPv6), processing duration in microseconds. -/
structure Entry where
  Result : Result
  Domain : String
  Client : List Nat
  Time : Nat
deriving DecidableEq, Repr

/-- Rendering of a client address as the tally key; models net.IP.String,
of which only injectivity on well-formed addresses matters here. -/
def clientString (b : List Nat) : String :=
  String.intercalate "." (b.map toString)

/-- Increment entry i of a count array, the embedding of nResult[i]++
(the index is always below rLast = length here, so the out-of-range
clause is unreachable). -/
def incAt : List Nat → Nat → List Nat
  | [], _ => []
  | x :: rest, 0 => (x + 1) :: rest
  | x :: rest, n + 1 => x :: incAt rest n

/-- Rejection condition of Update (stats_unit.go): unset result, empty
domain, or a client address that is neither 4 nor 16 bytes. -/
def updateRejects (e : Entry) : Prop :=
  e.Result = Result.RUnset ∨ e.Domain = "" ∨
    ¬(e.Client.length = 4 ∨ e.Client.length = 16)

instance (e : Entry) : Decidable (updateRejects e) := by
  unfold updateRejects; infer_instance

/-- Embedding of Update (stats_unit.go) on the live accumulator: silently
drop rejected events, otherwise bump the matching result-kind counter,
route the domain by classification, tally the client, accumulate time,
and bump the total. -/
def update (u : unit) (e : Entry) : unit :=
  if updateRejects e then u
  else
    { u with
      nResult := incAt u.nResult e.Result.toNat
      domains :=
        if e.Result = Result.RNotFiltered then mapIncr u.domains e.Domain
        else u.domains
      blockedDomains :=
        if e.Result = Result.RNotFiltered then u.blockedDomains
        else mapIncr u.blockedDomains e.Domain
      clients := mapIncr u.clients (clientString e.Client)
      timeSum := u.timeSum + e.Time
      nTotal := u.nTotal + 1 }

/-- Engine context (stats_unit.go, statsCtx): retention limit in hours, the
bolt store as a map from bucket identifier to its record, and the live
accumulator.  The current unit identifier (Go s.unitID()) is passed to each
operation explicitly. -/
structure statsCtx where
  limit : Nat
  db : Int → Option unitDB
  curUnit : unit

/-- Store write with overwrite semantics (flushUnitToDB: CreateBucketIfNotExists
followed by Put under the fixed sub-key). -/
def dbSet (db : Int → Option unitDB) (id : Int) (v : unitDB) : Int → Option unitDB :=
  fun j => if j = id then some v else db j

/-- Store deletion of one bucket (tx.DeleteBucket). -/
def dbDel (db : Int → Option unitDB) (id : Int) : Int → Option unitDB :=
  fun j => if j = id then none else db j

/-- Embedding of Configurate (stats_unit.go): negative day counts are
ignored, otherwise the hour limit becomes limitDays * 24. -/
def configurate (s : statsCtx) (limitDays : Int) : statsCtx :=
  if limitDays < 0 then s else { s with limit := (limitDays * 24).toNat }

/-- Embedding of Clear (stats_unit.go): roll back a transaction, close the
bolt handle and reopen the same file - there is no file removal, so every
persisted bucket survives unchanged - then swap in a fresh accumulator for
the current hour. -/
def clear (s : statsCtx) (now : Int) : statsCtx :=
  { s with curUnit := initUnit now }

/-- Store contents after Close (stats_unit.go): the live accumulator is
retired and its record flushed to its bucket in one final transaction. -/
def closeFlush (s : statsCtx) : Int → Option unitDB :=
  dbSet s.db s.curUnit.id (serialize s.curUnit)

/-- Embedding of createObject (stats_unit.go) against an existing store:
limit is limitDays * 24; all buckets older than now - limit - 1 are purged
(tx.ForEach visits keys in ascending order and the visitor stops at the
first surviving bucket, so exactly the identifiers below firstID go); the
current hour's record, if present, is loaded into a fresh accumulator via
initUnit followed by deserialize. -/
def createObject (db : Int → Option unitDB) (limitDays : Nat) (now : Int) : statsCtx :=
  let limit := limitDays * 24
  let firstID : Int := now - limit - 1
  let db' : Int → Option unitDB := fun i => if i < firstID then none else db i
  let u := initUnit now
  let u := match db' now with
    | some udb => deserialize u udb
    | none => u
  { limit := limit, db := db', curUnit := u }

/-- One rotation step of periodicFlush (stats_unit.go) at a boundary
crossing to hour now: swap in a fresh accumulator, serialize the retired
one, and in one write transaction put its record (putOk injects whether
that put succeeds, modelling storage failure) and delete the single bucket
with identifier now - limit (ok2 is whether that bucket existed, as
tx.DeleteBucket errors on a missing bucket); commit when either write
succeeded, else roll back.  The function always returns a state: a failed
flush loses the retired data but never crashes the process. -/
def flushStep (s : statsCtx) (now : Int) (putOk : Bool) : statsCtx :=
  let txDb := if putOk then dbSet s.db s.curUnit.id (serialize s.curUnit) else s.db
  let ok2 := (txDb (now - s.limit)).isSome
  let txDb2 := if ok2 then dbDel txDb (now - s.limit) else txDb
  { limit := s.limit
    db := if putOk || ok2 then txDb2 else s.db
    curUnit := initUnit now }

/-- First identifier of the query window (GetData: firstID = lastID - s.limit + 1). -/
def firstIDOf (limit : Nat) (lastID : Int) : Int := lastID - limit + 1

/-- Records loaded by GetData's loop over [firstID, lastID): limit - 1
buckets, substituting the all-zero record for missing ones.  This renders
the loop for its normal executions (limit >= 1); loopIterCount below gives
the exact iteration count of the Go loop including the wrap-around case. -/
def loadedUnits (s : statsCtx) (lastID : Int) : List unitDB :=
  (List.range (s.limit - 1)).map fun (k : Nat) =>
    (s.db (firstIDOf s.limit lastID + (k : Int))).getD emptyUnitDB

/-- Iteration count of GetData's loading loop for i := firstID; i != lastID;
i++ under Go's wrap-around int64 arithmetic: the loop body runs
(lastID - firstID) mod 2^64 = (limit - 1) mod 2^64 times. -/
def loopIterCount (limit : Nat) : Nat :=
  (((limit : Int) - 1) % (2 ^ 64)).toNat

/-- Window assembled by GetData: the loaded records, with the oldest dropped
when the live accumulator's identifier differs from lastID (units = units[1:]),
then the snapshot-encoding of the live accumulator appended. -/
def windowUnits (s : statsCtx) (lastID : Int) : List unitDB :=
  (if s.curUnit.id = lastID then loadedUnits s lastID
   else (loadedUnits s lastID).drop 1) ++ [serialize s.curUnit]

/-- Daily-series accumulation loop of GetData: running sum, emitted (and
reset) at each bucket whose identifier is divisible by 24; a partial sum
after the last boundary is dropped. -/
def daySeriesGo (f : unitDB → Nat) : Int → Nat → List unitDB → List Nat
  | _, _, [] => []
  | id, acc, u :: rest =>
    let acc' := acc + f u
    if id % 24 = 0 then acc' :: daySeriesGo f (id + 1) 0 rest
    else daySeriesGo f (id + 1) acc' rest

/-- Per-granularity numeric series of GetData: one point per bucket for
Hours, the 24-bucket accumulation for Days. -/
def seriesOf (tu : TimeUnit) (f : unitDB → Nat) (firstID : Int)
    (units : List unitDB) : List Nat :=
  match tu with
  | .Hours => units.map f
  | .Days => daySeriesGo f firstID 0 units

/-- Read of u.NResult[r] on a record (stored records always carry rLast
entries, so the default is unreachable). -/
def nResultAt (u : unitDB) (r : Result) : Nat := u.NResult.getD r.toNat 0

/-- Inner loop of GetData's top-counter merge: write every pair of one
bucket list into the merge map by assignment (m[it.Name] = int(it.Count)). -/
def writePairs (m : List (String × Nat)) (l : List countPair) : List (String × Nat) :=
  l.foldl (fun m p => mapSet m p.Name p.Count) m

/-- Merge map built by GetData's top-counter loops: every pair of every
bucket list is written with m[it.Name] = int(it.Count), an overwrite. -/
def mergedMapOf (bkts : List (List countPair)) : List (String × Nat) :=
  bkts.foldl writePairs []

/-- Top-K merge of GetData (the spec's mergeTopK): merge map, then
convertMapToArray with the limit. -/
def mergeTop (bkts : List (List countPair)) (limit : Nat) : List countPair :=
  convertMapToArray (mergedMapOf bkts) limit

/-- Embedding of convertTopArray (stats_unit.go): each pair becomes a
single-entry name-to-count mapping. -/
def convertTopArray (a : List countPair) : List (String × Nat) :=
  a.map fun p => (p.Name, p.Count)

/-- Accumulator of GetData's total-counters loop. -/
structure totalsAcc where
  NTotal : Nat
  TimeAvg : Nat
  timeN : Nat
  nFiltered : Nat
  nSafeBrowsing : Nat
  nSafeSearch : Nat
  nParental : Nat
deriving DecidableEq, Repr

/-- One iteration of GetData's total-counters loop: sum totals and
per-bucket averages, counting the buckets whose average is non-zero. -/
def totalsStep (acc : totalsAcc) (u : unitDB) : totalsAcc :=
  { NTotal := acc.NTotal + u.NTotal
    TimeAvg := acc.TimeAvg + u.TimeAvg
    timeN := acc.timeN + (if u.TimeAvg ≠ 0 then 1 else 0)
    nFiltered := acc.nFiltered + nResultAt u Result.RFiltered
    nSafeBrowsing := acc.nSafeBrowsing + nResultAt u Result.RSafeBrowsing
    nSafeSearch := acc.nSafeSearch + nResultAt u Result.RSafeSearch
    nParental := acc.nParental + nResultAt u Result.RParental }

/-- GetData's total-counters loop over the window. -/
def totalsOf (units : List unitDB) : totalsAcc :=
  units.foldl totalsStep ⟨0, 0, 0, 0, 0, 0, 0⟩

/-- The mapping GetData returns on its normal path. -/
structure GetDataResult where
  dnsQueries : List Nat
  blockedFiltering : List Nat
  replacedSafebrowsing : List Nat
  replacedParental : List Nat
  topQueriedDomains : List (String × Nat)
  topBlockedDomains : List (String × Nat)
  topClients : List (String × Nat)
  numDnsQueries : Nat
  numBlockedFiltering : Nat
  numReplacedSafebrowsing : Nat
  numReplacedSafesearch : Nat
  numReplacedParental : Nat
  avgProcessingTime : ℚ
  timeUnits : String
deriving DecidableEq, Repr

/-- Possible exits of GetData: the log.Fatalf abort when the assembled
window length differs from s.limit, the unsigned integer divide-by-zero
panic when no bucket of the window has a non-zero average processing time
(sum.TimeAvg / uint(timeN) with timeN = 0), or a normal result. -/
inductive QueryOutcome where
  | fatalLenMismatch (len limit : Nat)
  | divByZero
  | ok (r : GetDataResult)
deriving DecidableEq, Repr

/-- Normal-path result record of GetData over an assembled window. -/
def getDataOk (tu : TimeUnit) (fid : Int) (units : List unitDB) : GetDataResult :=
  { dnsQueries := seriesOf tu (fun u => u.NTotal) fid units
    blockedFiltering :=
      seriesOf tu (fun u => nResultAt u Result.RFiltered) fid units
    replacedSafebrowsing :=
      seriesOf tu (fun u => nResultAt u Result.RSafeBrowsing) fid units
    replacedParental :=
      seriesOf tu (fun u => nResultAt u Result.RParental) fid units
    topQueriedDomains :=
      convertTopArray (mergeTop (units.map (·.Domains)) maxDomains)
    topBlockedDomains :=
      convertTopArray (mergeTop (units.map (·.BlockedDomains)) maxDomains)
    topClients :=
      convertTopArray (mergeTop (units.map (·.Clients)) maxClients)
    numDnsQueries := (totalsOf units).NTotal
    numBlockedFiltering := (totalsOf units).nFiltered
    numReplacedSafebrowsing := (totalsOf units).nSafeBrowsing
    numReplacedSafesearch := (totalsOf units).nSafeSearch
    numReplacedParental := (totalsOf units).nParental
    avgProcessingTime :=
      (((totalsOf units).TimeAvg / (totalsOf units).timeN : Nat) : ℚ) / 1000000
    timeUnits := match tu with | .Hours => "hours" | .Days => "days" }

/-- Embedding of GetData (stats_unit.go): load the window, length-check it
against s.limit, build the four per-granularity series, the three merged
top lists, the grand totals, and the overall average
float64(sum.TimeAvg/uint(timeN)) / 1000000 rendered as a rational. -/
def getData (s : statsCtx) (tu : TimeUnit) (lastID : Int) : QueryOutcome :=
  if (windowUnits s lastID).length ≠ s.limit then
    .fatalLenMismatch (windowUnits s lastID).length s.limit
  else if (totalsOf (windowUnits s lastID)).timeN = 0 then .divByZero
  else .ok (getDataOk tu (firstIDOf s.limit lastID) (windowUnits s lastID))

/-- Projection of the dns_queries series out of a query outcome. -/
def dnsQueriesOf : QueryOutcome → Option (List Nat)
  | .ok r => some r.dnsQueries
  | _ => none

/-- Latest binding of a key in a flat list of pairs: the count of the last
occurrence of the name, none when the name never occurs. -/
def lastVal : List countPair → String → Option Nat
  | [], _ => none
  | p :: rest, k =>
    (lastVal rest k).or (if p.Name = k then some p.Count else none)

/- Concrete instances the theorems below evaluate the embedding on. -/

/-- Engine with one day of retention (limit = 24 hours), an empty store,
and a live accumulator still on hour 99 while the query runs at hour 100. -/
def s1ctx : statsCtx :=
  { limit := 24, db := fun _ => none, curUnit := initUnit 99 }

/-- Same engine but with the live accumulator on the query hour. -/
def s1ctxSynced : statsCtx :=
  { limit := 24, db := fun _ => none, curUnit := initUnit 100 }

/-- Accumulator holding one filtered query (result kind 2), 5 usec of
processing time, one blocked domain and one client; every mapping has at
most 100 entries. -/
def u3ex : unit :=
  { id := 7
    nTotal := 1
    nResult := [0, 0, 1, 0, 0, 0]
    timeSum := 5
    domains := []
    blockedDomains := [("x.com", 1)]
    clients := [("1.2.3.4", 1)] }

/-- Valid event: filtered result, non-empty domain, 4-byte client address. -/
def eValidEx : Entry :=
  { Result := Result.RFiltered, Domain := "x.com", Client := [1, 2, 3, 4], Time := 9 }

/-- Invalid event: unset result classification. -/
def eInvalidEx : Entry :=
  { Result := Result.RUnset, Domain := "x.com", Client := [1, 2, 3, 4], Time := 9 }

/-- Record of a bucket with one query and an average of 1 usec. -/
def oneUdb : unitDB :=
  { emptyUnitDB with NTotal := 1, TimeAvg := 1 }

/-- Engine with two hours of retention whose store holds a record with
traffic in every bucket (in particular in bucket 2, inside the query
window after a clear at hour 3). -/
def s5ctx : statsCtx :=
  { limit := 2, db := fun _ => some oneUdb, curUnit := u3ex }

/-- The same engine over a store with no records at all. -/
def s5empty : statsCtx :=
  { limit := 2, db := fun _ => none, curUnit := u3ex }

/-- Engine at hour 99 whose store holds buckets 75 and 76; at the rotation
to hour 100 with retention 24, bucket 76 = 100 - 24 is the only deletion
candidate while bucket 75 is strictly older than the cutoff. -/
def s6ctx : statsCtx :=
  { limit := 24, db := fun i => if i = 75 ∨ i = 76 then some oneUdb else none
    curUnit := initUnit 99 }

/-- Engine about to shut down at hour 42 holding u3ex's data in its live
accumulator (with identifier 42) and nothing persisted yet. -/
def s7ctx : statsCtx :=
  { limit := 24, db := fun _ => none, curUnit := { u3ex with id := 42 } }

/-- Live accumulator for hour 23 with one query of 1 usec. -/
def live8 : unit :=
  { initUnit 23 with nTotal := 1, timeSum := 1 }

/-- Engine whose window [0, 23] holds 24 hourly buckets with total = 1
each: identifiers 0..22 persisted, 23 live; identifier 0 satisfies
0 mod 24 = 0. -/
def s8ctx : statsCtx :=
  { limit := 24, db := fun i => if 0 ≤ i ∧ i ≤ 22 then some oneUdb else none
    curUnit := live8 }

/-- Engine with a one-hour window whose single (live) bucket has average
processing time 2 usec. -/
def s9ctx : statsCtx :=
  { limit := 1, db := fun _ => none
    curUnit := { initUnit 5 with nTotal := 1, timeSum := 2 } }

/-- An arbitrary engine state for reconfiguration. -/
def s10ctx : statsCtx :=
  { limit := 48, db := fun _ => none, curUnit := initUnit 0 }

/-
Theorems.
-/

/-- C1: the spec claims the window assembled by GetData always has exactly
s.limit entries, the oldest loaded record being discarded when the live
accumulator's identifier differs from lastID precisely to keep that size.
The code loads limit - 1 records, and in the differing-identifier case
drops one and appends one, leaving limit - 1: with retention 24 hours and
the live accumulator still on hour 99 at a query for hour 100, the window
has 23 entries and GetData aborts through its own log.Fatalf length
assertion (modelled as fatalLenMismatch), contradicting the claimed
invariant the assertion itself states. -/
theorem getData_window_fatal_when_live_id_differs :
    (windowUnits s1ctx 100).length = 23 ∧
    getData s1ctx TimeUnit.Hours 100 = QueryOutcome.fatalLenMismatch 23 24 ∧
    (windowUnits s1ctxSynced 100).length = 24 := by
  refine ⟨by decide, by decide, by decide⟩

/-- C2 counterexample: merging the top lists {a:5, b:3} and {a:2, c:4} with
limit 2 does not yield [{a:7}, {c:4}] as the claim states: GetData's merge
writes each count by assignment (m[name] = count), so the second bucket's
a:2 overwrites a:5 and the result is [{c:4}, {b:3}]. -/
theorem mergeTop_example_refutes_summing :
    mergeTop [[⟨"a", 5⟩, ⟨"b", 3⟩], [⟨"a", 2⟩, ⟨"c", 4⟩]] 2 = [⟨"c", 4⟩, ⟨"b", 3⟩] ∧
    mergeTop [[⟨"a", 5⟩, ⟨"b", 3⟩], [⟨"a", 2⟩, ⟨"c", 4⟩]] 2 ≠ [⟨"a", 7⟩, ⟨"c", 4⟩] := by
  refine ⟨by decide, by decide⟩

/-- C3: encoding u3ex (one filtered query, all mappings far below 100
entries) and decoding it back through initUnit followed by deserialize is
claimed lossless for the per-result-kind count array; but deserialize
appends the stored counts to the rLast zeroes initUnit installed, so the
reconstructed array is the six zeroes followed by the original six
entries: reads of the filtered-count index see 0 instead of 1, while the
total and the mappings do round-trip. -/
theorem roundtrip_shifts_result_counts :
    (deserialize (initUnit 7) (serialize u3ex)).nResult
      = [0, 0, 0, 0, 0, 0, 0, 0, 1, 0, 0, 0] ∧
    (deserialize (initUnit 7) (serialize u3ex)).nResult ≠ u3ex.nResult ∧
    (deserialize (initUnit 7) (serialize u3ex)).nResult.getD Result.RFiltered.toNat 0 = 0 ∧
    u3ex.nResult.getD Result.RFiltered.toNat 0 = 1 ∧
    (deserialize (initUnit 7) (serialize u3ex)).nTotal = u3ex.nTotal ∧
    (deserialize (initUnit 7) (serialize u3ex)).blockedDomains = u3ex.blockedDomains ∧
    (deserialize (initUnit 7) (serialize u3ex)).clients = u3ex.clients := by
  refine ⟨by decide, by decide, by decide, by decide, by decide, by decide, by decide⟩

/-- C7: shutting down s7ctx flushes the live accumulator (identifier 42)
and re-opening against the same store reconstructs the same identifier and
total, but not the same per-result-kind counts: deserialize appends the
stored array to initUnit's zeroes, so the reconstructed accumulator reads
0 filtered queries where it held 1 at shutdown. -/
theorem close_reopen_corrupts_kind_counts :
    (createObject (closeFlush s7ctx) 1 42).curUnit.id = s7ctx.curUnit.id ∧
    (createObject (closeFlush s7ctx) 1 42).curUnit.nTotal = s7ctx.curUnit.nTotal ∧
    (createObject (closeFlush s7ctx) 1 42).curUnit.blockedDomains
      = s7ctx.curUnit.blockedDomains ∧
    (createObject (closeFlush s7ctx) 1 42).curUnit.nResult
      = [0, 0, 0, 0, 0, 0, 0, 0, 1, 0, 0, 0] ∧
    (createObject (closeFlush s7ctx) 1 42).curUnit.nResult ≠ s7ctx.curUnit.nResult ∧
    (createObject (closeFlush s7ctx) 1 42).curUnit.nResult.getD Result.RFiltered.toNat 0 = 0 ∧
    s7ctx.curUnit.nResult.getD Result.RFiltered.toNat 0 = 1 := by
  refine ⟨by decide, by decide, by decide, by decide, by decide, by decide, by decide⟩

/-- C6 counterexample: at the rotation of s6ctx to hour 100 (retention 24)
the transaction commits - the retired record for hour 99 is written and
bucket 76 = 100 - 24 is deleted - yet bucket 75, strictly older than the
cutoff 100 - 24, survives the rotation, refuting the claim that every
bucket older than now - retention is deleted. -/
theorem flushStep_keeps_strictly_older_bucket :
    (flushStep s6ctx 100 true).db 75 = some oneUdb ∧
    (75 : Int) < 100 - 24 ∧
    (flushStep s6ctx 100 true).db 76 = none ∧
    (flushStep s6ctx 100 true).db 99 = some (serialize (initUnit 99)) := by
  refine ⟨by decide, by decide, by decide, by decide⟩

/-- C8 counterexample: the window [0, 23] of s8ctx holds 24 hourly buckets
with total = 1 each and contains the identifier 0 with 0 mod 24 = 0, yet
the daily series GetData returns is [1], not [24]: the running sum is
emitted at the bucket whose identifier is divisible by 24 - here the very
first one - and the 23 buckets after that boundary are dropped. -/
theorem daily_series_counterexample_boundary_at_start :
    ((0 : Int) % 24 = 0) ∧
    (windowUnits s8ctx 23).map (fun u => u.NTotal) = List.replicate 24 1 ∧
    dnsQueriesOf (getData s8ctx TimeUnit.Days 23) = some [1] ∧
    dnsQueriesOf (getData s8ctx TimeUnit.Days 23) ≠ some [24] := by
  refine ⟨by decide, by decide, by decide, by decide⟩

/-- Looking a key up after an assignment sees the new value exactly at the
assigned key. -/
theorem mapGet_mapSet (m : List (String × Nat)) (k : String) (v : Nat) (q : String) :
    mapGet (mapSet m k v) q = if k = q then some v else mapGet m q := by
  induction m with
  | nil => by_cases hq : k = q <;> simp [mapSet, mapGet, hq]
  | cons p rest ih =>
    obtain ⟨k', v'⟩ := p
    by_cases h : k' = k
    · by_cases hq : k = q <;> simp [mapSet, mapGet, h, hq]
    · by_cases hq : k' = q
      · have hkq : ¬k = q := fun e => h (hq.trans e.symm)
        have hqk : ¬q = k := fun e => hkq e.symm
        simp [mapSet, mapGet, h, hq, hkq, hqk]
      · simp [mapSet, mapGet, h, hq, ih]

/-- Writing a bucket list into a merge map makes the last occurrence of
each name win, falling back to the prior map for absent names. -/
theorem mapGet_writePairs (l : List countPair) (m : List (String × Nat)) (q : String) :
    mapGet (writePairs m l) q = (lastVal l q).or (mapGet m q) := by
  induction l generalizing m with
  | nil => simp [writePairs, lastVal]
  | cons p rest ih =>
    rw [writePairs, List.foldl_cons]
    show mapGet (writePairs (mapSet m p.Name p.Count) rest) q = _
    rw [ih, mapGet_mapSet, lastVal, Option.or_assoc]
    by_cases hp : p.Name = q
    · simp [hp]
    · simp [hp]

/-- The last binding across a concatenation comes from the second list
when it has one, else from the first. -/
theorem lastVal_append (A B : List countPair) (q : String) :
    lastVal (A ++ B) q = (lastVal B q).or (lastVal A q) := by
  induction A with
  | nil => simp [lastVal]
  | cons p rest ih =>
    rw [List.cons_append, lastVal, lastVal, ih, Option.or_assoc]

/-- C2 amended: GetData's top-K merge does not sum counts per key: each
pair is written into the merge map by assignment, so for every name the
count kept is that of its last occurrence across the concatenated bucket
lists (later buckets overwrite earlier ones); the merged map is then
sorted by descending count and truncated to the limit, and the claim's own
example {a:5, b:3} merged with {a:2, c:4} at limit 2 yields
[{c:4}, {b:3}], not [{a:7}, {c:4}]. -/
theorem mergeTop_overwrites_not_sums :
    (∀ (A B : List countPair) (q : String),
      mapGet (mergedMapOf [A, B]) q = lastVal (A ++ B) q) ∧
    (∀ (bkts : List (List countPair)) (limit : Nat),
      mergeTop bkts limit
        = (sortDesc ((mergedMapOf bkts).map fun kv => ⟨kv.1, kv.2⟩)).take limit) ∧
    mergeTop [[⟨"a", 5⟩, ⟨"b", 3⟩], [⟨"a", 2⟩, ⟨"c", 4⟩]] 2 = [⟨"c", 4⟩, ⟨"b", 3⟩] := by
  refine ⟨?_, fun bkts limit => rfl, by decide⟩
  intro A B q
  show mapGet (writePairs (writePairs [] A) B) q = _
  rw [mapGet_writePairs, mapGet_writePairs, lastVal_append]
  cases lastVal B q <;> cases lastVal A q <;> simp [mapGet]

/-- Incrementing one entry leaves a count array's length unchanged. -/
theorem incAt_length (l : List Nat) (i : Nat) : (incAt l i).length = l.length := by
  induction l generalizing i with
  | nil => rfl
  | cons x rest ih => cases i with
    | zero => rfl
    | succ n => simp [incAt, ih]

/-- The incremented entry reads one higher. -/
theorem incAt_getD_self (l : List Nat) (i : Nat) (h : i < l.length) :
    (incAt l i).getD i 0 = l.getD i 0 + 1 := by
  induction l generalizing i with
  | nil => simp at h
  | cons x rest ih =>
    cases i with
    | zero => simp [incAt]
    | succ n =>
      rw [show incAt (x :: rest) (n + 1) = x :: incAt rest n from rfl,
        List.getD_cons_succ, List.getD_cons_succ]
      exact ih n (by simpa using h)

/-- Every other entry is unchanged by the increment. -/
theorem incAt_getD_ne (l : List Nat) (i j : Nat) (h : j ≠ i) :
    (incAt l i).getD j 0 = l.getD j 0 := by
  induction l generalizing i j with
  | nil => simp [incAt]
  | cons x rest ih =>
    cases i with
    | zero =>
      cases j with
      | zero => exact absurd rfl h
      | succ m => simp [incAt]
    | succ n =>
      cases j with
      | zero => simp [incAt]
      | succ m =>
        rw [show incAt (x :: rest) (n + 1) = x :: incAt rest n from rfl,
          List.getD_cons_succ, List.getD_cons_succ]
        exact ih n m (fun e => h (by rw [e]))

/-- Every result kind indexes inside a count array of length rLast. -/
theorem Result.toNat_lt_rLast (r : Result) : r.toNat < rLast := by
  cases r <;> decide

/-- C4: on an accumulator whose count array has its invariant length
rLast, Update of a valid event (result classification set, non-empty
domain, client address of 4 or 16 bytes) increments the total by exactly 1
and exactly the event's result-kind counter by 1, leaving every other kind
unchanged; Update of a rejected event returns the accumulator unchanged,
surfacing nothing. -/
theorem update_valid_and_invalid (u : unit) (e : Entry)
    (hlen : u.nResult.length = rLast) :
    (¬updateRejects e →
      (update u e).nTotal = u.nTotal + 1 ∧
      (update u e).nResult.getD e.Result.toNat 0
        = u.nResult.getD e.Result.toNat 0 + 1 ∧
      (∀ j, j ≠ e.Result.toNat →
        (update u e).nResult.getD j 0 = u.nResult.getD j 0)) ∧
    (updateRejects e → update u e = u) := by
  constructor
  · intro hv
    unfold update
    rw [if_neg hv]
    refine ⟨rfl, ?_, ?_⟩
    · exact incAt_getD_self _ _ (by rw [hlen]; exact Result.toNat_lt_rLast e.Result)
    · intro j hj
      exact incAt_getD_ne _ _ _ hj
  · intro hr
    unfold update
    rw [if_pos hr]

/-- C4 witness: the theorem applied to a fresh accumulator, a valid
filtered event and an event with an unset classification. -/
theorem update_valid_and_invalid_witness :
    (initUnit 0).nResult.length = rLast ∧
    ¬updateRejects eValidEx ∧
    updateRejects eInvalidEx ∧
    (update (initUnit 0) eValidEx).nTotal = (initUnit 0).nTotal + 1 ∧
    (update (initUnit 0) eValidEx).nResult.getD eValidEx.Result.toNat 0
      = (initUnit 0).nResult.getD eValidEx.Result.toNat 0 + 1 ∧
    update (initUnit 0) eInvalidEx = initUnit 0 := by
  refine ⟨by decide, by decide, by decide, ?_, ?_, ?_⟩
  · exact ((update_valid_and_invalid (initUnit 0) eValidEx (by decide)).1 (by decide)).1
  · exact ((update_valid_and_invalid (initUnit 0) eValidEx (by decide)).1 (by decide)).2.1
  · exact (update_valid_and_invalid (initUnit 0) eInvalidEx (by decide)).2 (by decide)

/-- C5: Clear does not discard persisted data - it closes and reopens the
same bolt file (there is no file removal), so the store is untouched and
only the live accumulator is reset - and an immediate query therefore
fails the claim in both possible ways.  Over the still-populated store of
s5ctx the query returns normally with num_dns_queries = 1 from the
surviving bucket, not the claimed all-zero totals; and over the empty
store of s5empty, where the window really is all-zero, timeN = 0 and the
unsigned division sum.TimeAvg / uint(timeN) aborts with a divide-by-zero
run-time panic instead of returning the all-zero result. -/
theorem clear_then_query_not_all_zero :
    (∀ (s : statsCtx) (now : Int),
      (clear s now).db = s.db ∧
      (clear s now).limit = s.limit ∧
      (clear s now).curUnit = initUnit now) ∧
    (clear s5ctx 3).db 2 = some oneUdb ∧
    getData (clear s5ctx 3) TimeUnit.Hours 3
      = QueryOutcome.ok
          (getDataOk TimeUnit.Hours (firstIDOf s5ctx.limit 3) (windowUnits (clear s5ctx 3) 3)) ∧
    (getDataOk TimeUnit.Hours (firstIDOf s5ctx.limit 3) (windowUnits (clear s5ctx 3) 3)).numDnsQueries
      = 1 ∧
    totalsOf (windowUnits (clear s5empty 3) 3) = ⟨0, 0, 0, 0, 0, 0, 0⟩ ∧
    getData (clear s5empty 3) TimeUnit.Hours 3 = QueryOutcome.divByZero :=
  ⟨fun _ _ => ⟨rfl, rfl, rfl⟩, by decide, by rfl, by decide, by decide, by decide⟩

/-- C6 amended: on a rotation to hour now, the retired accumulator is
swapped out unconditionally and, in one write transaction, its record is
put at its own identifier while exactly one bucket is deleted - the one
whose identifier equals now minus the retention limit (strictly older
strays are left behind; they are purged only at startup); the transaction
commits when either the put or the deletion succeeded and rolls back
otherwise, and the engine always continues with a fresh accumulator. -/
theorem flushStep_deletes_exactly_cutoff_bucket (s : statsCtx) (now : Int) (putOk : Bool) :
    (flushStep s now putOk).curUnit = initUnit now ∧
    (flushStep s now putOk).limit = s.limit ∧
    (putOk = true →
      ∀ i, (flushStep s now putOk).db i =
        if i = now - s.limit then none
        else if i = s.curUnit.id then some (serialize s.curUnit)
        else s.db i) ∧
    (putOk = false → (s.db (now - s.limit)).isSome = true →
      ∀ i, (flushStep s now putOk).db i =
        if i = now - s.limit then none else s.db i) ∧
    (putOk = false → (s.db (now - s.limit)).isSome = false →
      (flushStep s now putOk).db = s.db) := by
  refine ⟨rfl, rfl, ?_, ?_, ?_⟩
  · rintro rfl i
    simp only [flushStep, if_true, Bool.true_or]
    by_cases hok2 :
        ((dbSet s.db s.curUnit.id (serialize s.curUnit)) (now - s.limit)).isSome = true
    · rw [if_pos hok2]
      unfold dbDel dbSet
      by_cases hc : i = now - s.limit <;> simp [hc]
    · rw [if_neg hok2]
      by_cases hc : i = now - s.limit
      · rw [hc, if_pos rfl]
        exact Option.not_isSome_iff_eq_none.mp (by simp [hok2])
      · rw [if_neg hc]
        rfl
  · rintro rfl hsome i
    simp only [flushStep, Bool.false_eq_true, if_false, Bool.false_or, hsome, if_true]
    unfold dbDel
    by_cases hc : i = now - s.limit <;> simp [hc]
  · rintro rfl hnone
    simp only [flushStep, Bool.false_eq_true, if_false, Bool.false_or, hnone]

/-- C6 witness: the amended description applied at the rotation of s6ctx,
showing the cutoff bucket 76 = 100 - 24 removed. -/
theorem flushStep_deletes_exactly_cutoff_bucket_witness :
    (flushStep s6ctx 100 true).curUnit = initUnit 100 ∧
    (flushStep s6ctx 100 true).db 76 = none := by
  have h := flushStep_deletes_exactly_cutoff_bucket s6ctx 100 true
  refine ⟨h.1, ?_⟩
  rw [h.2.2.1 rfl 76]
  decide

/-- The daily accumulation loop depends on its starting identifier only
through its residue modulo 24. -/
theorem daySeriesGo_congr (f : Stats.unitDB → Nat) (l : List unitDB) :
    ∀ (i j : Int) (acc : Nat), i % 24 = j % 24 →
      daySeriesGo f i acc l = daySeriesGo f j acc l := by
  induction l with
  | nil => intro i j acc h; rfl
  | cons u rest ih =>
    intro i j acc h
    have h' : (i + 1) % 24 = (j + 1) % 24 := by omega
    simp only [daySeriesGo]
    rw [h]
    by_cases hz : j % 24 = 0
    · rw [if_pos hz, if_pos hz, ih _ _ _ h']
    · rw [if_neg hz, if_neg hz, ih _ _ _ h']

/-- C8 amended: a day point is emitted at - and includes - the bucket
whose identifier is divisible by 24, so a window of 24 hourly buckets with
total = 1 each aggregates to the single day point [24] exactly when the
window's last identifier fid + 23 is the one satisfying id mod 24 = 0;
when the boundary falls earlier in the window, the emitted point counts
only the buckets up to it and the rest are dropped (counterexample
theorem above). -/
theorem daily_sum_24_when_window_ends_on_boundary (fid : Int)
    (h : (fid + 23) % 24 = 0) :
    daySeriesGo (fun u => u.NTotal) fid 0 (List.replicate 24 oneUdb) = [24] := by
  have hf : fid % 24 = 1 % 24 := by omega
  rw [daySeriesGo_congr (fun u => u.NTotal) (List.replicate 24 oneUdb) fid 1 0 hf]
  decide

/-- C8 witness: the amended statement at fid = 1, whose window [1, 24]
ends on the boundary identifier 24. -/
theorem daily_sum_24_when_window_ends_on_boundary_witness :
    ((1 : Int) + 23) % 24 = 0 ∧
    daySeriesGo (fun u => u.NTotal) 1 0 (List.replicate 24 oneUdb) = [24] :=
  ⟨by decide, daily_sum_24_when_window_ends_on_boundary 1 (by decide)⟩

/-- The TimeAvg accumulated by the totals loop is the sum of the
per-bucket averages. -/
theorem totalsOf_TimeAvg_sum (units : List unitDB) :
    (totalsOf units).TimeAvg = (units.map (fun u => u.TimeAvg)).sum := by
  have key : ∀ (l : List unitDB) (acc : totalsAcc),
      (List.foldl totalsStep acc l).TimeAvg
        = acc.TimeAvg + (l.map (fun u => u.TimeAvg)).sum := by
    intro l
    induction l with
    | nil => intro acc; simp
    | cons u rest ih =>
      intro acc
      rw [List.foldl_cons, ih]
      simp [totalsStep]
      omega
  simpa [totalsOf] using key units ⟨0, 0, 0, 0, 0, 0, 0⟩

/-- The timeN accumulated by the totals loop counts the buckets whose
average is non-zero. -/
theorem totalsOf_timeN_countP (units : List unitDB) :
    (totalsOf units).timeN = units.countP (fun u => u.TimeAvg != 0) := by
  have key : ∀ (l : List unitDB) (acc : totalsAcc),
      (List.foldl totalsStep acc l).timeN
        = acc.timeN + l.countP (fun u => u.TimeAvg != 0) := by
    intro l
    induction l with
    | nil => intro acc; simp
    | cons u rest ih =>
      intro acc
      rw [List.foldl_cons, ih, List.countP_cons]
      by_cases h : u.TimeAvg = 0
      all_goals simp [totalsStep, h]
      all_goals omega
  simpa [totalsOf] using key units ⟨0, 0, 0, 0, 0, 0, 0⟩

/-- C9: whenever GetData returns normally (window length matches the limit
and some bucket has a non-zero average), the overall average processing
time it reports is the sum of the per-bucket averages divided (integer
division, then scaled to seconds) by the number of window buckets whose
average is non-zero - buckets with zero traffic are excluded from the
denominator, not counted as zero-valued samples. -/
theorem getData_avg_excludes_zero_buckets (s : statsCtx) (tu : TimeUnit) (now : Int)
    (hlen : (windowUnits s now).length = s.limit)
    (hN : (windowUnits s now).countP (fun u => u.TimeAvg != 0) ≠ 0) :
    getData s tu now
      = QueryOutcome.ok (getDataOk tu (firstIDOf s.limit now) (windowUnits s now)) ∧
    (getDataOk tu (firstIDOf s.limit now) (windowUnits s now)).avgProcessingTime
      = ((((windowUnits s now).map (fun u => u.TimeAvg)).sum
          / (windowUnits s now).countP (fun u => u.TimeAvg != 0) : Nat) : ℚ)
        / 1000000 := by
  constructor
  · unfold getData
    rw [if_neg (by simp [hlen]), if_neg (by rw [totalsOf_timeN_countP]; exact hN)]
  · show (((totalsOf (windowUnits s now)).TimeAvg
        / (totalsOf (windowUnits s now)).timeN : Nat) : ℚ) / 1000000 = _
    rw [totalsOf_TimeAvg_sum, totalsOf_timeN_countP]

/-- C9 witness: the theorem applied to the one-hour engine s9ctx, whose
single live bucket has average 2 usec. -/
theorem getData_avg_excludes_zero_buckets_witness :
    (windowUnits s9ctx 5).length = s9ctx.limit ∧
    (windowUnits s9ctx 5).countP (fun u => u.TimeAvg != 0) ≠ 0 ∧
    getData s9ctx TimeUnit.Hours 5
      = QueryOutcome.ok
          (getDataOk TimeUnit.Hours (firstIDOf s9ctx.limit 5) (windowUnits s9ctx 5)) :=
  ⟨by decide, by decide,
    (getData_avg_excludes_zero_buckets s9ctx TimeUnit.Hours 5 (by decide) (by decide)).1⟩

/-- C10: Configurate rejects only negative day counts, so Configurate 0 is
accepted and sets the hour limit to 0; GetData's loading loop for
i := firstID; i != lastID; i++ then starts at firstID = lastID + 1 and,
under Go's wrap-around 64-bit arithmetic, runs 2^64 - 1 iterations instead
of the limit - 1 iterations it performs for every positive limit: the loop
terminates normally only under the precondition limit >= 1. -/
theorem configurate_zero_accepted_loop_wraps (s : statsCtx) :
    configurate s (-1) = s ∧
    (configurate s 0).limit = 0 ∧
    (∀ lastID : Int, firstIDOf 0 lastID = lastID + 1) ∧
    loopIterCount 0 = 2 ^ 64 - 1 ∧
    (∀ n : Nat, 1 ≤ n → n ≤ 2 ^ 63 → loopIterCount n = n - 1) := by
  refine ⟨?_, ?_, ?_, by decide, ?_⟩
  · unfold configurate
    rw [if_pos (by norm_num)]
  · rfl
  · intro lastID
    unfold firstIDOf
    simp
  · intro n h1 h2
    have hp : (2 : Nat) ^ 63 = 9223372036854775808 := by norm_num
    rw [hp] at h2
    unfold loopIterCount
    have hq : (2 : Int) ^ 64 = 18446744073709551616 := by norm_num
    rw [hq]
    omega

/-- C10 witness: the theorem applied to s10ctx and to the positive limit
24, which yields the normal 23 iterations. -/
theorem configurate_zero_accepted_loop_wraps_witness :
    (configurate s10ctx 0).limit = 0 ∧ loopIterCount 24 = 23 :=
  ⟨(configurate_zero_accepted_loop_wraps s10ctx).2.1,
    (configurate_zero_accepted_loop_wraps s10ctx).2.2.2.2 24 (by decide) (by decide)⟩

end Stats
